import Mathlib

/-!
Verification of the Durandal dialog plugin (`src/plugins/js/dialog.js`).

Two complementary models are developed, both translated from the source:

* `DialogModule` embeds the module-level `dialog` record with its mutable
  fields: the z-index counter `currentZIndex` (line 105), the `contexts`
  registry (line 12), and the table of manager methods that `addContext`
  extends with `show<Name>` helper methods (lines 137-145).  Methods are
  kept in a name-indexed table because the source installs helpers with
  `this[helperName] = ...`, i.e. in the same namespace as `show` itself.

* `MState` with `step` embeds the asynchronous show/close lifecycle
  (lines 79-89 and 196-234) as a small-step event machine.  Each call to
  `show` spawns a `ShowProc`; the environment chooses the outcomes of the
  asynchronous collaborators — module acquisition (`system.acquire`),
  `activator.activateItem`, `activator.deactivateItem` — via `Event`s,
  matching the collaborator contracts in the specification.  Modelled from
  the spec: the jQuery/`system.defer` deferred is a future that settles at
  most once (`DfdState.settle`); the activation controller may answer any
  request with success or refusal, and repeated deactivation requests may
  all succeed (idempotent no-op success).  The DOM-facing context hooks
  `addHost`/`removeHost` are abstracted to per-session invocation counters,
  which is all the claims observe about them.
-/

namespace Durandal

/-- Association-list lookup, modelling JavaScript property read `o[k]`. -/
def lookupAssoc {β : Type} : List (String × β) → String → Option β
  | [], _ => none
  | (k, v) :: t, key => if k = key then some v else lookupAssoc t key

/-- Association-list update, modelling JavaScript property write `o[k] = v`. -/
def setAssoc {β : Type} : List (String × β) → String → β → List (String × β)
  | [], key, v => [(key, v)]
  | (k, w) :: t, key, v => if k = key then (key, v) :: t else (k, w) :: setAssoc t key v

/-- A dialog context record.  The source's `default` context also carries a
float `blockoutOpacity` and the three DOM hooks; the claims only observe a
context's identity and its `name` field, so the hooks are abstracted (their
invocations are counted per session in the lifecycle machine below). -/
structure DialogContext where
  name : String
  removeDelay : Int
deriving DecidableEq, Repr

/-- A manager method: either the built-in `show` (lines 196-234) or a
`show<Name>` helper installed by `addContext` (lines 142-144), which closes
over the registered context name and forwards to `this.show`. -/
inductive MgrMethod where
  | native
  | helper (contextName : String)
deriving DecidableEq, Repr

/-- The observable effect of reaching the built-in `show`: the triple
`(obj, activationData, context)` it was invoked with (line 196). -/
structure ShowInvocation where
  obj : Nat
  activationData : Nat
  context : Option String
deriving DecidableEq, Repr

/-- The module-level mutable state of the `dialog` object: `currentZIndex`
(line 105), the `contexts` registry (line 12), and the method table that
`addContext` writes helper methods into (line 142). -/
structure DialogModule where
  currentZIndex : Int
  contexts : List (String × DialogContext)
  methods : List (String × MgrMethod)
deriving DecidableEq, Repr

/-- Source lines 111-113: `getNextZIndex: function () { return ++this.currentZIndex; }`.
Returns the incremented counter together with the updated module record. -/
def getNextZIndex (m : DialogModule) : Int × DialogModule :=
  (m.currentZIndex + 1, { m with currentZIndex := m.currentZIndex + 1 })

/-- The module state after `k` calls to `getNextZIndex`. -/
def runZ (m : DialogModule) : Nat → DialogModule
  | 0 => m
  | k+1 => (getNextZIndex (runZ m k)).2

/-- The value returned by the `(k+1)`-st call to `getNextZIndex`. -/
def zVal (m : DialogModule) (k : Nat) : Int :=
  (getNextZIndex (runZ m k)).1

/-- Source line 141: `name.substr(0, 1).toUpperCase() + name.substr(1)`. -/
def capitalizeFirst (s : String) : String :=
  match s.data with
  | [] => ""
  | c :: cs => String.mk (Char.toUpper c :: cs)

/-- The helper method name `'show' + name.substr(0,1).toUpperCase() + name.substr(1)`
computed on source line 141. -/
def helperMethodName (name : String) : String :=
  "show" ++ capitalizeFirst name

/-- Source lines 137-145: `addContext` overwrites the context's `name` field
with the registration key, stores it in the registry, and installs a
`show<Name>` method on the manager that forwards to `this.show(obj, data, name)`. -/
def addContext (m : DialogModule) (name : String) (ctx : DialogContext) : DialogModule :=
  { m with
    contexts := setAssoc m.contexts name { ctx with name := name },
    methods := setAssoc m.methods (helperMethodName name) (MgrMethod.helper name) }

/-- Source lines 128-130: `getContext: function(name) { return contexts[name || 'default']; }`.
A missing argument is `none`; the empty string is the only falsy string. -/
def getContext (m : DialogModule) (name : Option String) : Option DialogContext :=
  lookupAssoc m.contexts
    (match name with
     | none => "default"
     | some s => if s = "" then "default" else s)

/-- Method-call dispatch on the manager.  A `helper` method's body is
`return this.show(obj, activationData, name)` (line 143), so dispatch
re-enters the table under the key `"show"`; the fuel bounds the call depth
(a call that exhausts the fuel models non-terminating recursion and yields
`none`).  The built-in `show` yields the invocation record. -/
def callMethod : Nat → DialogModule → String → Nat → Nat → Option String → Option ShowInvocation
  | 0, _, _, _, _, _ => none
  | fuel+1, m, meth, obj, data, ctx =>
    match lookupAssoc m.methods meth with
    | some MgrMethod.native => some { obj := obj, activationData := data, context := ctx }
    | some (MgrMethod.helper name) => callMethod fuel m "show" obj data (some name)
    | none => none

/-- The module state after load: the literal passed on source line 283 has no
`name` field of its own (here `""`) and `addContext` is applied to it under
the key `"default"`; `currentZIndex` starts at `1050` (line 105). -/
def initModule : DialogModule :=
  addContext
    { currentZIndex := 1050, contexts := [], methods := [("show", MgrMethod.native)] }
    "default"
    { name := "", removeDelay := 200 }

/-- Lifecycle phase of one `show` call:
`resolving` — awaiting `system.acquire` of a string module id (line 82);
`stuck` — acquisition failed, no continuation remains (the rejection of the
inner promise has no handler on line 82, so nothing ever settles `dfd`);
`activating` — awaiting `activateItem` (line 204);
`declinedDone` — activation answered `false`, `dfd.resolve(false)` ran (line 229);
`live` — activation succeeded and the session object was built (lines 206-227). -/
inductive Phase where
  | resolving
  | stuck
  | activating
  | declinedDone
  | live
deriving DecidableEq, Repr

/-- State of the deferred created on line 200 and returned (as a promise)
from `show`.  `rejected` is included because the claims speak about
rejection; the code never calls `dfd.reject`. -/
inductive DfdState where
  | pending
  | resolvedFalse
  | resolvedClose (args : List String)
  | rejected
deriving DecidableEq, Repr

/-- Modelled from the spec: settlement of a jQuery/`system.defer` deferred
is final — a `resolve` on an already-settled deferred is a no-op (spec §9,
"single-resolution guarantees"). -/
def DfdState.settle (d : DfdState) (v : DfdState) : DfdState :=
  match d with
  | DfdState.pending => v
  | _ => d

/-- The per-`show`-call state.  `attached` is whether `instance.__dialog__`
is currently set (line 206 / deleted on line 216); `pendingDeacts` holds the
argument lists of `deactivateItem` calls whose continuations (lines 212-219)
have not yet run; `addHostCalls`/`removeHostCalls` count invocations of the
context's hooks (lines 224 and 215); `closedCount` counts how many times the
success continuation of `deactivateItem` has run for this session. -/
structure ShowProc where
  phase : Phase
  dfd : DfdState
  attached : Bool
  pendingDeacts : List (List String)
  addHostCalls : Nat
  removeHostCalls : Nat
  closedCount : Nat
deriving DecidableEq, Repr

/-- The machine state: one `ShowProc` per `show` call (each call targets a
fresh owner object, indexed by position), plus the module-level counter
`dialogCount` (line 13). -/
structure MState where
  procs : List ShowProc
  dialogCount : Int
deriving DecidableEq, Repr

/-- Initial machine state: module just loaded, `dialogCount = 0`. -/
def MState.init : MState := { procs := [], dialogCount := 0 }

/-- A `show` call on a non-string object: `ensureDialogInstance` resolves it
immediately (line 86), so the call proceeds straight to `activateItem`. -/
def newProcObj : ShowProc :=
  { phase := Phase.activating, dfd := DfdState.pending, attached := false,
    pendingDeacts := [], addHostCalls := 0, removeHostCalls := 0, closedCount := 0 }

/-- A `show` call on a string module id: `ensureDialogInstance` first awaits
`system.acquire` (lines 81-84). -/
def newProcStr : ShowProc :=
  { phase := Phase.resolving, dfd := DfdState.pending, attached := false,
    pendingDeacts := [], addHostCalls := 0, removeHostCalls := 0, closedCount := 0 }

/-- Read the `ShowProc` of owner `i`. -/
def MState.getProc (s : MState) (i : Nat) : Option ShowProc :=
  s.procs[i]?

/-- Replace the `ShowProc` of owner `i`. -/
def MState.setProc (s : MState) (i : Nat) (p : ShowProc) : MState :=
  { s with procs := s.procs.set i p }

/-- Source lines 168-174: `getDialog` returns `obj.__dialog__` for a truthy
`obj` and `undefined` otherwise; it never throws.  An owner reference is
`some i`; the session back-reference exists exactly when `attached`. -/
def getDialog (s : MState) (obj : Option Nat) : Option Nat :=
  match obj with
  | none => none
  | some i =>
    match s.getProc i with
    | some p => if p.attached then some i else none
    | none => none

/-- Source lines 181-187: manager-level `close` looks up the owner's session
via `getDialog` and, when present, invokes the session's `close` with the
rest arguments — which calls `deactivateItem` (line 212) and returns; the
continuation is recorded as a pending deactivation. -/
def close (s : MState) (obj : Option Nat) (args : List String) : MState :=
  match getDialog s obj with
  | some i =>
    match s.getProc i with
    | some p => s.setProc i { p with pendingDeacts := p.pendingDeacts ++ [args] }
    | none => s
  | none => s

/-- Environment/application events driving the machine.  `showObj`/`showStr`
are calls to `show`; `acquireOk`/`acquireFail` settle `system.acquire`;
`activateOk`/`activateDeclined` settle `activateItem`; `closeCall` is the
manager-level `dialog.close(owner, ...args)`; `sessionClose` invokes the
session's `close` closure directly (as e.g. the blockout click handler on
line 364 does); `deactOk`/`deactDeclined` settle the `k`-th pending
`deactivateItem` with `true`/`false`. -/
inductive Event where
  | showObj
  | showStr
  | acquireOk (i : Nat)
  | acquireFail (i : Nat)
  | activateOk (i : Nat)
  | activateDeclined (i : Nat)
  | closeCall (i : Nat) (args : List String)
  | sessionClose (i : Nat) (args : List String)
  | deactOk (i : Nat) (k : Nat)
  | deactDeclined (i : Nat) (k : Nat)
deriving DecidableEq, Repr

/-- One step of the lifecycle machine; each branch mirrors one continuation
of `show`/`close` in the source (see the doc comments on `Event` and
`ShowProc`).  Events whose guards do not hold (e.g. settling an activation
that was never requested) leave the state unchanged. -/
def step (s : MState) (e : Event) : MState :=
  match e with
  | Event.showObj => { s with procs := s.procs ++ [newProcObj] }
  | Event.showStr => { s with procs := s.procs ++ [newProcStr] }
  | Event.acquireOk i =>
    match s.getProc i with
    | some p =>
      if p.phase = Phase.resolving then s.setProc i { p with phase := Phase.activating } else s
    | none => s
  | Event.acquireFail i =>
    match s.getProc i with
    | some p =>
      if p.phase = Phase.resolving then s.setProc i { p with phase := Phase.stuck } else s
    | none => s
  | Event.activateOk i =>
    match s.getProc i with
    | some p =>
      if p.phase = Phase.activating then
        { procs := (s.setProc i { p with
            phase := Phase.live, attached := true,
            addHostCalls := p.addHostCalls + 1 }).procs,
          dialogCount := s.dialogCount + 1 }
      else s
    | none => s
  | Event.activateDeclined i =>
    match s.getProc i with
    | some p =>
      if p.phase = Phase.activating then
        s.setProc i { p with phase := Phase.declinedDone,
                             dfd := p.dfd.settle DfdState.resolvedFalse }
      else s
    | none => s
  | Event.closeCall i args => close s (some i) args
  | Event.sessionClose i args =>
    match s.getProc i with
    | some p =>
      if p.phase = Phase.live then
        s.setProc i { p with pendingDeacts := p.pendingDeacts ++ [args] }
      else s
    | none => s
  | Event.deactOk i k =>
    match s.getProc i with
    | some p =>
      if p.phase = Phase.live then
        match p.pendingDeacts[k]? with
        | some args =>
          { procs := (s.setProc i { p with
              attached := false,
              pendingDeacts := p.pendingDeacts.eraseIdx k,
              removeHostCalls := p.removeHostCalls + 1,
              closedCount := p.closedCount + 1,
              dfd := p.dfd.settle (DfdState.resolvedClose args) }).procs,
            dialogCount := s.dialogCount - 1 }
        | none => s
      else s
    | none => s
  | Event.deactDeclined i k =>
    match s.getProc i with
    | some p =>
      if p.phase = Phase.live then
        match p.pendingDeacts[k]? with
        | some _ => s.setProc i { p with pendingDeacts := p.pendingDeacts.eraseIdx k }
        | none => s
      else s
    | none => s

/-- Run the machine over a list of events. -/
def run (s : MState) (es : List Event) : MState :=
  es.foldl step s

/-- Source lines 119-121: `isOpen: function() { return dialogCount > 0; }`. -/
def isOpen (s : MState) : Bool :=
  decide (0 < s.dialogCount)

/-- Number of sessions successfully created (activations that succeeded). -/
def openedI (s : MState) : Int :=
  (s.procs.map (fun p => if p.phase = Phase.live then (1 : Int) else 0)).sum

/-- Total number of successful close completions. -/
def closedI (s : MState) : Int :=
  (s.procs.map (fun p => (p.closedCount : Int))).sum

/-- Number of live sessions, i.e. owners currently carrying a `__dialog__`
back-reference. -/
def liveI (s : MState) : Int :=
  (s.procs.map (fun p => if p.attached then (1 : Int) else 0)).sum

/-- Per-session invariant: the back-reference exists iff the session was
created and never successfully closed, and only created sessions have close
completions. -/
def ProcInv (p : ShowProc) : Prop :=
  p.attached = (decide (p.phase = Phase.live) && decide (p.closedCount = 0))
  ∧ (p.closedCount ≠ 0 → p.phase = Phase.live)

/-- Machine invariant: `dialogCount` is the ledger of `++` per successful
activation and `--` per successful close completion, together with the
per-session invariant. -/
def Inv (s : MState) : Prop :=
  s.dialogCount = openedI s - closedI s ∧ ∀ p ∈ s.procs, ProcInv p

/-- Looking up the key just written returns the written value. -/
lemma lookupAssoc_setAssoc_self {β : Type} (l : List (String × β)) (k : String) (v : β) :
    lookupAssoc (setAssoc l k v) k = some v := by
  induction l with
  | nil => simp [setAssoc, lookupAssoc]
  | cons kv t ih =>
    obtain ⟨k', w⟩ := kv
    by_cases hk : k' = k
    · subst hk
      simp [setAssoc, lookupAssoc]
    · simp [setAssoc, lookupAssoc, hk, ih]

/-- Writing one key leaves lookups of other keys unchanged. -/
lemma lookupAssoc_setAssoc_ne {β : Type} (l : List (String × β)) (k k' : String) (v : β)
    (h : k ≠ k') :
    lookupAssoc (setAssoc l k v) k' = lookupAssoc l k' := by
  induction l with
  | nil => simp [setAssoc, lookupAssoc, h]
  | cons kv t ih =>
    obtain ⟨a, w⟩ := kv
    by_cases ha : a = k
    · subst ha
      simp [setAssoc, lookupAssoc, h]
    · by_cases ha' : a = k'
      · subst ha'
        simp [setAssoc, lookupAssoc, ha]
      · simp [setAssoc, lookupAssoc, ha, ha', ih]

/-- After `k` calls, `getNextZIndex` has changed nothing but the counter. -/
lemma runZ_char (m : DialogModule) (k : Nat) :
    runZ m k = { m with currentZIndex := m.currentZIndex + (k : Int) } := by
  induction k with
  | zero => simp [runZ]
  | succ n ih =>
    simp only [runZ, ih, getNextZIndex]
    congr 1
    push_cast
    ring

/-- A nonempty registration name yields a helper name distinct from `show`. -/
lemma helperMethodName_ne_show (name : String) (h : name ≠ "") :
    helperMethodName name ≠ "show" := by
  intro hcontra
  have hd : ("show" : String).data ++ (capitalizeFirst name).data = ("show" : String).data :=
    congrArg String.data hcontra
  have hnil : (capitalizeFirst name).data = [] := List.append_right_eq_self.mp hd
  apply h
  rcases name with ⟨ndata⟩
  cases ndata with
  | nil => rfl
  | cons c cs =>
    exfalso
    simp [capitalizeFirst] at hnil

/-- C7: every call to `getNextZIndex()` returns a value strictly greater than
the previous call's — so any `K` consecutive calls return strictly increasing
integers with no repeats — and the only module state it mutates is the
z-index counter itself (all other fields of the module record are unchanged
after any number of calls). -/
theorem getNextZIndex_strictly_increasing (m : DialogModule) (i j k : Nat) (h : i < j) :
    zVal m i < zVal m j
    ∧ runZ m k = { m with currentZIndex := m.currentZIndex + (k : Int) } := by
  refine ⟨?_, runZ_char m k⟩
  unfold zVal getNextZIndex
  rw [runZ_char, runZ_char]
  simp only
  omega

/-- Witness for C7: the first call returns less than the third, and three
calls change only the counter. -/
theorem getNextZIndex_strictly_increasing_witness :
    zVal initModule 0 < zVal initModule 2
    ∧ runZ initModule 3 = { initModule with currentZIndex := initModule.currentZIndex + (3 : Nat) } :=
  getNextZIndex_strictly_increasing initModule 0 2 3 (by decide)

/-- C8 counterexample: for the registration name `""` the claim fails.  The
installed helper is named `'show' + '' = 'show'`, so it replaces `show`
itself, and invoking it recurses into itself forever (fuel-bounded dispatch
never reaches the built-in `show`), instead of behaving like
`show(obj, data, '')` which would produce the invocation record. -/
theorem addContext_empty_name_helper_cex :
    helperMethodName "" = "show"
    ∧ callMethod 100 (addContext initModule "" { name := "x", removeDelay := 0 }) "show" 1 2 none
        = none
    ∧ callMethod 100 (addContext initModule "" { name := "x", removeDelay := 0 }) "show" 1 2 none
        ≠ some { obj := 1, activationData := 2, context := some "" } := by
  refine ⟨by decide, by decide, by decide⟩

/-- C8 (amended): for every name whose helper name differs from `show`
(equivalently, every nonempty name), `addContext(name, ctx)` installs a
manager method `show<Name>` (the name with its first letter upper-cased)
such that `show<Name>(obj, data)` performs exactly `show(obj, data, name)`;
in particular a context named `confirm` installs `showConfirm`. -/
theorem addContext_helper_equiv_show (m : DialogModule) (name : String) (ctx : DialogContext)
    (obj data fuel : Nat) (hname : name ≠ "")
    (hshow : lookupAssoc m.methods "show" = some MgrMethod.native)
    (hfuel : 2 ≤ fuel) :
    callMethod fuel (addContext m name ctx) (helperMethodName name) obj data none
      = some { obj := obj, activationData := data, context := some name } := by
  obtain ⟨k, rfl⟩ : ∃ k, fuel = k + 2 := ⟨fuel - 2, by omega⟩
  have h1 : lookupAssoc (addContext m name ctx).methods (helperMethodName name)
      = some (MgrMethod.helper name) := by
    simp [addContext, lookupAssoc_setAssoc_self]
  have h2 : lookupAssoc (addContext m name ctx).methods "show" = some MgrMethod.native := by
    simp only [addContext]
    rw [lookupAssoc_setAssoc_ne _ _ _ _ (helperMethodName_ne_show name hname)]
    exact hshow
  simp [callMethod, h1, h2]

/-- Witness for C8: registering `confirm` installs `showConfirm`, and
invoking it is `show(obj, data, 'confirm')`. -/
theorem addContext_helper_equiv_show_witness :
    callMethod 2 (addContext initModule "confirm" { name := "", removeDelay := 0 })
      (helperMethodName "confirm") 1 2 none
      = some { obj := 1, activationData := 2, context := some "confirm" } :=
  addContext_helper_equiv_show initModule "confirm" { name := "", removeDelay := 0 } 1 2 2
    (by decide) (by decide) (by decide)

/-- C10 counterexample: for the registered name `""` the claim fails.
`addContext('', ctx)` stores the context under the key `''`, but
`getContext('')` reads `contexts['' || 'default']`, i.e. the default
context, whose name is `'default'`, not `''`. -/
theorem getContext_empty_name_cex :
    Option.map DialogContext.name
        (getContext (addContext initModule "" { name := "weird", removeDelay := 0 }) (some ""))
      = some "default"
    ∧ Option.map DialogContext.name
        (getContext (addContext initModule "" { name := "weird", removeDelay := 0 }) (some ""))
      ≠ some "" := by
  refine ⟨by decide, by decide⟩

/-- C10 (amended): for every nonempty registered name `n`, `addContext`
overwrites the supplied context's `name` field with `n` before storing it —
so `getContext(n)` returns the stored record with `name = n` even when the
supplied context carried a different name — and `getContext` with an
omitted or falsy (empty-string) argument reads the `default` registration. -/
theorem addContext_overwrites_name (m : DialogModule) (n : String) (ctx : DialogContext)
    (h : n ≠ "") :
    getContext (addContext m n ctx) (some n) = some { ctx with name := n }
    ∧ getContext m none = lookupAssoc m.contexts "default"
    ∧ getContext m (some "") = lookupAssoc m.contexts "default" := by
  refine ⟨?_, rfl, by simp [getContext]⟩
  simp [getContext, addContext, h, lookupAssoc_setAssoc_self]

/-- Witness for C10: registering `custom` with a context named `other`
stores it under `custom` with its name overwritten. -/
theorem addContext_overwrites_name_witness :
    getContext (addContext initModule "custom" { name := "other", removeDelay := 7 })
        (some "custom")
      = some { name := "custom", removeDelay := 7 }
    ∧ getContext initModule none = lookupAssoc initModule.contexts "default"
    ∧ getContext initModule (some "") = lookupAssoc initModule.contexts "default" :=
  addContext_overwrites_name initModule "custom" { name := "other", removeDelay := 7 } (by decide)

lemma run_nil (s : MState) : run s [] = s := rfl

lemma run_cons (s : MState) (e : Event) (es : List Event) :
    run s (e :: es) = run (step s e) es := rfl

lemma getProc_lt_length {s : MState} {i : Nat} {p : ShowProc} (h : s.getProc i = some p) :
    i < s.procs.length := by
  unfold MState.getProc at h
  rw [List.getElem?_eq_some] at h
  exact h.1

lemma getProc_mk (l : List ShowProc) (d : Int) (i : Nat) :
    (MState.mk l d).getProc i = l[i]? := rfl

lemma setProc_procs (s : MState) (i : Nat) (q : ShowProc) :
    (s.setProc i q).procs = s.procs.set i q := rfl

lemma getProc_setProc_self {s : MState} {i : Nat} {p : ShowProc} (q : ShowProc)
    (h : s.getProc i = some p) :
    (s.setProc i q).getProc i = some q := by
  have hlen := getProc_lt_length h
  unfold MState.getProc MState.setProc
  exact List.getElem?_set_self hlen

lemma getProc_setProc_ne (s : MState) (i j : Nat) (q : ShowProc) (h : i ≠ j) :
    (s.setProc i q).getProc j = s.getProc j := by
  unfold MState.getProc MState.setProc
  exact List.getElem?_set_ne h

lemma settle_of_ne_pending {d : DfdState} (v : DfdState) (h : d ≠ DfdState.pending) :
    d.settle v = d := by
  cases d <;> simp_all [DfdState.settle]

/-- How one step can change the deferred of session `i`: either it is
unchanged, or it was pending and is settled — by a declined activation
(with `false`, line 229) or by a successful close completion (with the
argument list of that close invocation, line 217).  These are the only two
`dfd.resolve` sites in `show`. -/
lemma dfd_step (s : MState) (e : Event) (i : Nat) (p : ShowProc) (h : s.getProc i = some p) :
    Option.map ShowProc.dfd ((step s e).getProc i) = some p.dfd
    ∨ (p.dfd = DfdState.pending ∧
        ((e = Event.activateDeclined i ∧
            Option.map ShowProc.dfd ((step s e).getProc i) = some DfdState.resolvedFalse)
         ∨ ∃ k args, e = Event.deactOk i k ∧ p.pendingDeacts[k]? = some args ∧
            Option.map ShowProc.dfd ((step s e).getProc i)
              = some (DfdState.resolvedClose args))) := by
  have hlen : i < s.procs.length := getProc_lt_length h
  cases e with
  | showObj =>
    left
    simp only [step, MState.getProc]
    rw [List.getElem?_append_left hlen]
    rw [show s.procs[i]? = some p from h]
    rfl
  | showStr =>
    left
    simp only [step, MState.getProc]
    rw [List.getElem?_append_left hlen]
    rw [show s.procs[i]? = some p from h]
    rfl
  | acquireOk j =>
    left
    simp only [step]
    rcases hj : s.getProc j with _ | q
    · simp [hj, h]
    by_cases hq : q.phase = Phase.resolving
    · simp only [hj, hq, if_true]
      by_cases hji : j = i
      · subst hji
        rw [hj] at h
        cases h
        rw [getProc_setProc_self _ hj]
        rfl
      · rw [getProc_setProc_ne _ _ _ _ hji, h]
        rfl
    · simp [hj, hq, h]
  | acquireFail j =>
    left
    simp only [step]
    rcases hj : s.getProc j with _ | q
    · simp [hj, h]
    by_cases hq : q.phase = Phase.resolving
    · simp only [hj, hq, if_true]
      by_cases hji : j = i
      · subst hji
        rw [hj] at h
        cases h
        rw [getProc_setProc_self _ hj]
        rfl
      · rw [getProc_setProc_ne _ _ _ _ hji, h]
        rfl
    · simp [hj, hq, h]
  | activateOk j =>
    left
    simp only [step]
    rcases hj : s.getProc j with _ | q
    · simp [hj, h]
    by_cases hq : q.phase = Phase.activating
    · simp only [hj, hq, if_true, getProc_mk, setProc_procs]
      by_cases hji : j = i
      · subst hji
        rw [hj] at h
        cases h
        rw [List.getElem?_set_self hlen]
        rfl
      · rw [List.getElem?_set_ne hji]
        rw [show s.procs[i]? = some p from h]
        rfl
    · simp [hj, hq, h]
  | activateDeclined j =>
    simp only [step]
    rcases hj : s.getProc j with _ | q
    · simp [hj, h]
    by_cases hq : q.phase = Phase.activating
    · simp only [hj, hq, if_true]
      by_cases hji : j = i
      · subst hji
        rw [hj] at h
        cases h
        rw [getProc_setProc_self _ hj]
        by_cases hdfd : p.dfd = DfdState.pending
        · right
          refine ⟨hdfd, Or.inl ⟨rfl, ?_⟩⟩
          simp [hdfd, DfdState.settle]
        · left
          simp [settle_of_ne_pending _ hdfd]
      · left
        rw [getProc_setProc_ne _ _ _ _ hji, h]
        rfl
    · left
      simp [hj, hq, h]
  | closeCall j args =>
    left
    simp only [step, close, getDialog]
    rcases hj : s.getProc j with _ | q
    · simp [hj, h]
    by_cases hq : q.attached = true
    · simp only [hj, hq, if_true]
      by_cases hji : j = i
      · subst hji
        rw [hj] at h
        cases h
        rw [getProc_setProc_self _ hj]
        rfl
      · rw [getProc_setProc_ne _ _ _ _ hji, h]
        rfl
    · simp [hj, hq, h]
  | sessionClose j args =>
    left
    simp only [step]
    rcases hj : s.getProc j with _ | q
    · simp [hj, h]
    by_cases hq : q.phase = Phase.live
    · simp only [hj, hq, if_true]
      by_cases hji : j = i
      · subst hji
        rw [hj] at h
        cases h
        rw [getProc_setProc_self _ hj]
        rfl
      · rw [getProc_setProc_ne _ _ _ _ hji, h]
        rfl
    · simp [hj, hq, h]
  | deactOk j k =>
    simp only [step]
    rcases hj : s.getProc j with _ | q
    · simp [hj, h]
    by_cases hq : q.phase = Phase.live
    · simp only [hj, hq, if_true]
      rcases hk : q.pendingDeacts[k]? with _ | args
      · simp [h]
      simp only [getProc_mk, setProc_procs]
      by_cases hji : j = i
      · subst hji
        rw [hj] at h
        cases h
        rw [List.getElem?_set_self hlen]
        by_cases hdfd : p.dfd = DfdState.pending
        · right
          refine ⟨hdfd, Or.inr ⟨k, args, rfl, hk, ?_⟩⟩
          simp [hdfd, DfdState.settle]
        · left
          simp [settle_of_ne_pending _ hdfd]
      · left
        rw [List.getElem?_set_ne hji]
        rw [show s.procs[i]? = some p from h]
        rfl
    · simp [hj, hq, h]
  | deactDeclined j k =>
    left
    simp only [step]
    rcases hj : s.getProc j with _ | q
    · simp [hj, h]
    by_cases hq : q.phase = Phase.live
    · simp only [hj, hq, if_true]
      rcases hk : q.pendingDeacts[k]? with _ | args
      · simp [h]
      by_cases hji : j = i
      · subst hji
        rw [hj] at h
        cases h
        rw [getProc_setProc_self _ hj]
        rfl
      · rw [getProc_setProc_ne _ _ _ _ hji, h]
        rfl
    · simp [hj, hq, h]


/-- Once settled, the deferred is frozen by every further step. -/
lemma dfd_settled_step (s : MState) (e : Event) (i : Nat) (d : DfdState)
    (hd : d ≠ DfdState.pending)
    (h : Option.map ShowProc.dfd (s.getProc i) = some d) :
    Option.map ShowProc.dfd ((step s e).getProc i) = some d := by
  rcases hq : s.getProc i with _ | p
  · rw [hq] at h
    simp at h
  · have hpd : p.dfd = d := by
      rw [hq] at h
      simpa using h
    rcases dfd_step s e i p hq with hmain | ⟨hpend, _⟩
    · rw [hmain, hpd]
    · rw [hpend] at hpd
      exact absurd hpd.symm hd

/-- Once settled, the deferred is frozen by every further event sequence. -/
lemma dfd_settled_run (s : MState) (es : List Event) (i : Nat) (d : DfdState)
    (hd : d ≠ DfdState.pending)
    (h : Option.map ShowProc.dfd (s.getProc i) = some d) :
    Option.map ShowProc.dfd ((run s es).getProc i) = some d := by
  induction es generalizing s with
  | nil => exact h
  | cons e es ih => exact ih (step s e) (dfd_settled_step s e i d hd h)

/-- C1: the future returned by `show` settles at most once.  Once it is not
pending, no later step and no later event sequence ever changes it (first
conjunct); and the only transitions out of pending are `dfd.resolve(false)`
on a declined activation and `dfd.resolve(args)` on the first successful
completion of an invocation of the session close, with exactly the argument
list that invocation enqueued (second conjunct).  In particular no execution
resolves the future twice or with any other value. -/
theorem show_future_settles_at_most_once (s : MState) (e : Event) (es : List Event) (i : Nat)
    (p : ShowProc) (h : s.getProc i = some p) :
    (p.dfd ≠ DfdState.pending →
      Option.map ShowProc.dfd ((step s e).getProc i) = some p.dfd
      ∧ Option.map ShowProc.dfd ((run (step s e) es).getProc i) = some p.dfd)
    ∧ (p.dfd = DfdState.pending →
        Option.map ShowProc.dfd ((step s e).getProc i) = some DfdState.pending
        ∨ (e = Event.activateDeclined i ∧
            Option.map ShowProc.dfd ((step s e).getProc i) = some DfdState.resolvedFalse)
        ∨ ∃ k args, e = Event.deactOk i k ∧ p.pendingDeacts[k]? = some args ∧
            Option.map ShowProc.dfd ((step s e).getProc i)
              = some (DfdState.resolvedClose args)) := by
  constructor
  · intro hd
    have h1 : Option.map ShowProc.dfd ((step s e).getProc i) = some p.dfd :=
      dfd_settled_step s e i p.dfd hd (by rw [h]; rfl)
    exact ⟨h1, dfd_settled_run _ es i p.dfd hd h1⟩
  · intro hd
    rcases dfd_step s e i p h with hmain | ⟨_, hcase⟩
    · left
      rw [hmain, hd]
    · rcases hcase with h1 | h2
      · right; left; exact h1
      · right; right; exact h2

/-- Witness for C1: one owner shown, then activation declined. -/
theorem show_future_settles_at_most_once_witness :
    (newProcObj.dfd ≠ DfdState.pending →
      Option.map ShowProc.dfd
          ((step (MState.mk [newProcObj] 0) (Event.activateDeclined 0)).getProc 0)
        = some newProcObj.dfd
      ∧ Option.map ShowProc.dfd
          ((run (step (MState.mk [newProcObj] 0) (Event.activateDeclined 0)) []).getProc 0)
        = some newProcObj.dfd)
    ∧ (newProcObj.dfd = DfdState.pending →
        Option.map ShowProc.dfd
            ((step (MState.mk [newProcObj] 0) (Event.activateDeclined 0)).getProc 0)
          = some DfdState.pending
        ∨ (Event.activateDeclined 0 = Event.activateDeclined 0 ∧
            Option.map ShowProc.dfd
                ((step (MState.mk [newProcObj] 0) (Event.activateDeclined 0)).getProc 0)
              = some DfdState.resolvedFalse)
        ∨ ∃ k args, Event.activateDeclined 0 = Event.deactOk 0 k ∧
            newProcObj.pendingDeacts[k]? = some args ∧
            Option.map ShowProc.dfd
                ((step (MState.mk [newProcObj] 0) (Event.activateDeclined 0)).getProc 0)
              = some (DfdState.resolvedClose args)) :=
  show_future_settles_at_most_once (MState.mk [newProcObj] 0) (Event.activateDeclined 0) [] 0
    newProcObj rfl

/-- A session in a terminal failed phase (`stuck` or `declinedDone`) with no
back-reference is never touched again by any event: the acquisition and
activation continuations check the phase, `close` finds no `__dialog__`
on the owner, and deactivation continuations exist only for live sessions. -/
lemma inactive_absorbing_step (s : MState) (i : Nat) (p : ShowProc)
    (h : s.getProc i = some p)
    (hphase : p.phase = Phase.stuck ∨ p.phase = Phase.declinedDone)
    (hatt : p.attached = false) (e : Event) :
    (step s e).getProc i = some p := by
  have hlen := getProc_lt_length h
  have hres : p.phase ≠ Phase.resolving := by rcases hphase with h' | h' <;> simp [h']
  have hact : p.phase ≠ Phase.activating := by rcases hphase with h' | h' <;> simp [h']
  have hlive : p.phase ≠ Phase.live := by rcases hphase with h' | h' <;> simp [h']
  cases e with
  | showObj =>
    simp only [step, MState.getProc]
    rw [List.getElem?_append_left hlen]
    exact h
  | showStr =>
    simp only [step, MState.getProc]
    rw [List.getElem?_append_left hlen]
    exact h
  | acquireOk j =>
    simp only [step]
    rcases hj : s.getProc j with _ | q
    · simp [hj, h]
    by_cases hq : q.phase = Phase.resolving
    · simp only [hj, hq, if_true]
      by_cases hji : j = i
      · subst hji
        rw [hj] at h
        cases h
        exact absurd hq hres
      · rw [getProc_setProc_ne _ _ _ _ hji]
        exact h
    · simp [hj, hq, h]
  | acquireFail j =>
    simp only [step]
    rcases hj : s.getProc j with _ | q
    · simp [hj, h]
    by_cases hq : q.phase = Phase.resolving
    · simp only [hj, hq, if_true]
      by_cases hji : j = i
      · subst hji
        rw [hj] at h
        cases h
        exact absurd hq hres
      · rw [getProc_setProc_ne _ _ _ _ hji]
        exact h
    · simp [hj, hq, h]
  | activateOk j =>
    simp only [step]
    rcases hj : s.getProc j with _ | q
    · simp [hj, h]
    by_cases hq : q.phase = Phase.activating
    · simp only [hj, hq, if_true, getProc_mk, setProc_procs]
      by_cases hji : j = i
      · subst hji
        rw [hj] at h
        cases h
        exact absurd hq hact
      · rw [List.getElem?_set_ne hji]
        exact h
    · simp [hj, hq, h]
  | activateDeclined j =>
    simp only [step]
    rcases hj : s.getProc j with _ | q
    · simp [hj, h]
    by_cases hq : q.phase = Phase.activating
    · simp only [hj, hq, if_true]
      by_cases hji : j = i
      · subst hji
        rw [hj] at h
        cases h
        exact absurd hq hact
      · rw [getProc_setProc_ne _ _ _ _ hji]
        exact h
    · simp [hj, hq, h]
  | closeCall j args =>
    simp only [step, close, getDialog]
    rcases hj : s.getProc j with _ | q
    · simp [hj, h]
    by_cases hq : q.attached = true
    · simp only [hj, hq, if_true]
      by_cases hji : j = i
      · subst hji
        rw [hj] at h
        cases h
        rw [hatt] at hq
        cases hq
      · rw [getProc_setProc_ne _ _ _ _ hji]
        exact h
    · simp [hj, hq, h]
  | sessionClose j args =>
    simp only [step]
    rcases hj : s.getProc j with _ | q
    · simp [hj, h]
    by_cases hq : q.phase = Phase.live
    · simp only [hj, hq, if_true]
      by_cases hji : j = i
      · subst hji
        rw [hj] at h
        cases h
        exact absurd hq hlive
      · rw [getProc_setProc_ne _ _ _ _ hji]
        exact h
    · simp [hj, hq, h]
  | deactOk j k =>
    simp only [step]
    rcases hj : s.getProc j with _ | q
    · simp [hj, h]
    by_cases hq : q.phase = Phase.live
    · simp only [hj, hq, if_true]
      rcases hk : q.pendingDeacts[k]? with _ | args
      · simp [h]
      simp only [getProc_mk, setProc_procs]
      by_cases hji : j = i
      · subst hji
        rw [hj] at h
        cases h
        exact absurd hq hlive
      · rw [List.getElem?_set_ne hji]
        exact h
    · simp [hj, hq, h]
  | deactDeclined j k =>
    simp only [step]
    rcases hj : s.getProc j with _ | q
    · simp [hj, h]
    by_cases hq : q.phase = Phase.live
    · simp only [hj, hq, if_true]
      rcases hk : q.pendingDeacts[k]? with _ | args
      · simp [h]
      by_cases hji : j = i
      · subst hji
        rw [hj] at h
        cases h
        exact absurd hq hlive
      · rw [getProc_setProc_ne _ _ _ _ hji]
        exact h
    · simp [hj, hq, h]

/-- Run-level version of `inactive_absorbing_step`. -/
lemma inactive_absorbing_run (s : MState) (i : Nat) (p : ShowProc)
    (h : s.getProc i = some p)
    (hphase : p.phase = Phase.stuck ∨ p.phase = Phase.declinedDone)
    (hatt : p.attached = false) (es : List Event) :
    (run s es).getProc i = some p := by
  induction es generalizing s with
  | nil => exact h
  | cons e es ih => exact ih (step s e) (inactive_absorbing_step s i p h hphase hatt e)


/-- C2 counterexample: `show` with a string identifier whose acquisition
fails.  Lines 81-84 pass only a success callback to `system.acquire(...)`
and the outer deferred is resolved only inside that callback; nothing ever
rejects it.  After the failure the future returned by `show` is still
pending in a quiescent state (no continuation remains), not rejected —
contradicting the claim that the failure propagates as a rejection. -/
theorem resolution_failure_not_rejected_cex :
    (run MState.init [Event.showStr, Event.acquireFail 0]).getProc 0
      = some { phase := Phase.stuck, dfd := DfdState.pending, attached := false,
               pendingDeacts := [], addHostCalls := 0, removeHostCalls := 0, closedCount := 0 }
    ∧ DfdState.pending ≠ DfdState.rejected := by
  refine ⟨by decide, by decide⟩

/-- C2 (amended): when the identifier resolver fails to produce an object,
the failure does not propagate: the future returned by `show` is left
forever pending — the session record (in particular its deferred) is
untouched by every subsequent event sequence, and the future is never
rejected and never resolved. -/
theorem resolution_failure_future_forever_pending (s : MState) (i : Nat) (p : ShowProc)
    (es : List Event)
    (h : s.getProc i = some p) (hphase : p.phase = Phase.stuck)
    (hatt : p.attached = false) (hdfd : p.dfd = DfdState.pending) :
    (run s es).getProc i = some p
    ∧ Option.map ShowProc.dfd ((run s es).getProc i) = some DfdState.pending
    ∧ Option.map ShowProc.dfd ((run s es).getProc i) ≠ some DfdState.rejected := by
  have hrun := inactive_absorbing_run s i p h (Or.inl hphase) hatt es
  refine ⟨hrun, ?_, ?_⟩
  · rw [hrun]
    simp [hdfd]
  · rw [hrun]
    simp [hdfd]

/-- A session stuck after a failed acquisition: phase `stuck`, future
pending, no back-reference (this is exactly the record produced by
`showStr` followed by `acquireFail`). -/
def stuckProc : ShowProc :=
  { phase := Phase.stuck, dfd := DfdState.pending, attached := false,
    pendingDeacts := [], addHostCalls := 0, removeHostCalls := 0, closedCount := 0 }

/-- Witness for C2: after a failed acquisition, later close attempts and
unrelated shows leave the stuck session and its pending future untouched. -/
theorem resolution_failure_future_forever_pending_witness :
    (run (MState.mk [stuckProc] 0)
        [Event.closeCall 0 ["x"], Event.showObj, Event.deactOk 0 0]).getProc 0 = some stuckProc
    ∧ Option.map ShowProc.dfd
        ((run (MState.mk [stuckProc] 0)
          [Event.closeCall 0 ["x"], Event.showObj, Event.deactOk 0 0]).getProc 0)
        = some DfdState.pending
    ∧ Option.map ShowProc.dfd
        ((run (MState.mk [stuckProc] 0)
          [Event.closeCall 0 ["x"], Event.showObj, Event.deactOk 0 0]).getProc 0)
        ≠ some DfdState.rejected :=
  resolution_failure_future_forever_pending (MState.mk [stuckProc] 0) 0 stuckProc
    [Event.closeCall 0 ["x"], Event.showObj, Event.deactOk 0 0] rfl rfl rfl rfl


/-- C3: if the activation controller declines during `show` (line 228, the
`else` branch), the returned future resolves with `false`, the open-dialog
counter — and hence `isOpen()` — is unchanged, no session is attached to the
owner, and the context `addHost` hook is never invoked: not at the decline
and not by any later event sequence. -/
theorem activation_declined_no_mounting (s : MState) (i : Nat) (p : ShowProc) (es : List Event)
    (h : s.getProc i = some p) (hphase : p.phase = Phase.activating)
    (hatt : p.attached = false) (hhost : p.addHostCalls = 0)
    (hdfd : p.dfd = DfdState.pending) :
    (step s (Event.activateDeclined i)).dialogCount = s.dialogCount
    ∧ isOpen (step s (Event.activateDeclined i)) = isOpen s
    ∧ (run (step s (Event.activateDeclined i)) es).getProc i
        = some { p with phase := Phase.declinedDone, dfd := DfdState.resolvedFalse }
    ∧ Option.map ShowProc.addHostCalls
        ((run (step s (Event.activateDeclined i)) es).getProc i) = some 0
    ∧ getDialog (run (step s (Event.activateDeclined i)) es) (some i) = none := by
  have hstep : step s (Event.activateDeclined i)
      = s.setProc i { p with phase := Phase.declinedDone, dfd := DfdState.resolvedFalse } := by
    simp [step, h, hphase, hdfd, DfdState.settle]
  have hp' : (s.setProc i
        { p with phase := Phase.declinedDone, dfd := DfdState.resolvedFalse }).getProc i
      = some { p with phase := Phase.declinedDone, dfd := DfdState.resolvedFalse } :=
    getProc_setProc_self _ h
  have habs := inactive_absorbing_run _ i _ hp' (Or.inr rfl) (by simpa using hatt) es
  rw [hstep]
  refine ⟨rfl, rfl, habs, ?_, ?_⟩
  · rw [habs]
    simp [hhost]
  · simp only [getDialog]
    rw [habs]
    simp [hatt]

/-- Witness for C3: one owner in the activating phase; activation declines;
afterwards another show and a close attempt change nothing for this owner. -/
theorem activation_declined_no_mounting_witness :
    (step (MState.mk [newProcObj] 0) (Event.activateDeclined 0)).dialogCount
        = (MState.mk [newProcObj] 0).dialogCount
    ∧ isOpen (step (MState.mk [newProcObj] 0) (Event.activateDeclined 0))
        = isOpen (MState.mk [newProcObj] 0)
    ∧ (run (step (MState.mk [newProcObj] 0) (Event.activateDeclined 0))
          [Event.showObj, Event.closeCall 0 []]).getProc 0
        = some { newProcObj with phase := Phase.declinedDone, dfd := DfdState.resolvedFalse }
    ∧ Option.map ShowProc.addHostCalls
        ((run (step (MState.mk [newProcObj] 0) (Event.activateDeclined 0))
          [Event.showObj, Event.closeCall 0 []]).getProc 0) = some 0
    ∧ getDialog (run (step (MState.mk [newProcObj] 0) (Event.activateDeclined 0))
          [Event.showObj, Event.closeCall 0 []]) (some 0) = none :=
  activation_declined_no_mounting (MState.mk [newProcObj] 0) 0 newProcObj
    [Event.showObj, Event.closeCall 0 []] rfl rfl rfl rfl rfl

/-- C4: if the activation controller rejects deactivation during close
(lines 212-219: the continuation does nothing when `closeSuccess` is
false), the close performs no state change — the counter is not
decremented, `removeHost` is not called, the session stays attached, the
future stays pending — and a subsequent close whose deactivation succeeds
closes the dialog and resolves the future with the retry arguments. -/
theorem deactivation_declined_then_retry (s : MState) (i : Nat) (p : ShowProc)
    (args args2 : List String)
    (h : s.getProc i = some p) (hphase : p.phase = Phase.live) (hatt : p.attached = true)
    (hpend : p.pendingDeacts = [args]) (hdfd : p.dfd = DfdState.pending) :
    (step s (Event.deactDeclined i 0)).dialogCount = s.dialogCount
    ∧ (step s (Event.deactDeclined i 0)).getProc i
        = some { p with pendingDeacts := ([] : List (List String)) }
    ∧ (run s [Event.deactDeclined i 0, Event.closeCall i args2, Event.deactOk i 0]).dialogCount
        = s.dialogCount - 1
    ∧ (run s [Event.deactDeclined i 0, Event.closeCall i args2, Event.deactOk i 0]).getProc i
        = some { p with
                   attached := false, pendingDeacts := ([] : List (List String)),
                   removeHostCalls := p.removeHostCalls + 1, closedCount := p.closedCount + 1,
                   dfd := DfdState.resolvedClose args2 } := by
  obtain ⟨ph, pdfd, patt, ppend, pah, prh, pcc⟩ := p
  dsimp only at hphase hatt hpend hdfd
  subst hphase hatt hpend hdfd
  have hlen := getProc_lt_length h
  have h1 : step s (Event.deactDeclined i 0)
      = s.setProc i (ShowProc.mk Phase.live DfdState.pending true [] pah prh pcc) := by
    simp [step, h]
  have hp1 : (s.setProc i (ShowProc.mk Phase.live DfdState.pending true [] pah prh pcc)).getProc i
      = some (ShowProc.mk Phase.live DfdState.pending true [] pah prh pcc) :=
    getProc_setProc_self _ h
  have h2 : step (s.setProc i (ShowProc.mk Phase.live DfdState.pending true [] pah prh pcc))
        (Event.closeCall i args2)
      = (s.setProc i (ShowProc.mk Phase.live DfdState.pending true [] pah prh pcc)).setProc i
          (ShowProc.mk Phase.live DfdState.pending true [args2] pah prh pcc) := by
    simp only [step, close, getDialog]
    rw [hp1]
    simp [hp1]
  have hp2 : ((s.setProc i (ShowProc.mk Phase.live DfdState.pending true [] pah prh pcc)).setProc i
        (ShowProc.mk Phase.live DfdState.pending true [args2] pah prh pcc)).getProc i
      = some (ShowProc.mk Phase.live DfdState.pending true [args2] pah prh pcc) :=
    getProc_setProc_self _ hp1
  have hrun : run s [Event.deactDeclined i 0, Event.closeCall i args2, Event.deactOk i 0]
      = step (step (step s (Event.deactDeclined i 0)) (Event.closeCall i args2))
          (Event.deactOk i 0) := rfl
  refine ⟨by rw [h1]; rfl, by rw [h1]; exact hp1, ?_, ?_⟩
  · rw [hrun, h1, h2]
    simp only [step]
    rw [hp2]
    simp [MState.setProc]
  · rw [hrun, h1, h2]
    simp only [step]
    rw [hp2]
    simp [MState.setProc, MState.getProc, DfdState.settle, List.getElem?_set_self, hlen]


/-- A live session with one pending deactivation (arguments `["a"]`),
produced by `show` + `activateOk` + a first `close` attempt. -/
def liveProcOnePending : ShowProc :=
  { phase := Phase.live, dfd := DfdState.pending, attached := true,
    pendingDeacts := [["a"]], addHostCalls := 1, removeHostCalls := 0, closedCount := 0 }

/-- Witness for C4: a declined deactivation changes nothing; a retried close
with arguments `["b"]` then closes and resolves with `["b"]`. -/
theorem deactivation_declined_then_retry_witness :
    (step (MState.mk [liveProcOnePending] 1) (Event.deactDeclined 0 0)).dialogCount
        = (MState.mk [liveProcOnePending] 1).dialogCount
    ∧ (step (MState.mk [liveProcOnePending] 1) (Event.deactDeclined 0 0)).getProc 0
        = some { liveProcOnePending with pendingDeacts := ([] : List (List String)) }
    ∧ (run (MState.mk [liveProcOnePending] 1)
          [Event.deactDeclined 0 0, Event.closeCall 0 ["b"], Event.deactOk 0 0]).dialogCount
        = (MState.mk [liveProcOnePending] 1).dialogCount - 1
    ∧ (run (MState.mk [liveProcOnePending] 1)
          [Event.deactDeclined 0 0, Event.closeCall 0 ["b"], Event.deactOk 0 0]).getProc 0
        = some { liveProcOnePending with
                   attached := false, pendingDeacts := ([] : List (List String)),
                   removeHostCalls := liveProcOnePending.removeHostCalls + 1,
                   closedCount := liveProcOnePending.closedCount + 1,
                   dfd := DfdState.resolvedClose ["b"] } :=
  deactivation_declined_then_retry (MState.mk [liveProcOnePending] 1) 0 liveProcOnePending
    ["a"] ["b"] rfl rfl rfl rfl rfl

/-- C9: closing an owner with no attached session is a silent no-op — the
whole machine state (counter, sessions, registry) is unchanged and nothing
fails — and `getDialog` totally returns either the owner session reference
or the "none" indicator. -/
theorem close_without_session_noop (s : MState) (obj obj2 : Option Nat) (args : List String)
    (h : getDialog s obj = none) :
    close s obj args = s
    ∧ (getDialog s obj2 = none
       ∨ ∃ i p, obj2 = some i ∧ s.getProc i = some p ∧ p.attached = true
           ∧ getDialog s obj2 = some i) := by
  constructor
  · simp [close, h]
  · rcases obj2 with _ | i
    · left
      rfl
    rcases hq : s.getProc i with _ | p
    · left
      simp [getDialog, hq]
    by_cases hatt : p.attached = true
    · right
      exact ⟨i, p, rfl, hq, hatt, by simp [getDialog, hq, hatt]⟩
    · left
      simp [getDialog, hq, hatt]

/-- Witness for C9: closing the owner of a failed session (which carries no
back-reference) changes nothing, and `getDialog` on it reports "none". -/
theorem close_without_session_noop_witness :
    close (MState.mk [stuckProc] 0) (some 0) ["r"] = MState.mk [stuckProc] 0
    ∧ (getDialog (MState.mk [stuckProc] 0) (some 0) = none
       ∨ ∃ i p, (some 0 : Option Nat) = some i
           ∧ (MState.mk [stuckProc] 0).getProc i = some p
           ∧ p.attached = true ∧ getDialog (MState.mk [stuckProc] 0) (some 0) = some i) :=
  close_without_session_noop (MState.mk [stuckProc] 0) (some 0) (some 0) ["r"] rfl


/-- C5: for an owner whose activation and deactivation both succeed,
`show(owner)` followed by `close(owner, args)` resolves the future returned
by `show` with exactly `args`, removes the session back-reference from the
owner — `getDialog(owner)` reports "none" afterwards (lines 216 and
168-174) — and returns the open-dialog counter to its previous value. -/
theorem show_close_roundtrip (s : MState) (args : List String) :
    Option.map ShowProc.dfd
        ((run s [Event.showObj, Event.activateOk s.procs.length,
            Event.closeCall s.procs.length args, Event.deactOk s.procs.length 0]).getProc
          s.procs.length)
      = some (DfdState.resolvedClose args)
    ∧ getDialog
        (run s [Event.showObj, Event.activateOk s.procs.length,
            Event.closeCall s.procs.length args, Event.deactOk s.procs.length 0])
        (some s.procs.length)
      = none
    ∧ (run s [Event.showObj, Event.activateOk s.procs.length,
          Event.closeCall s.procs.length args, Event.deactOk s.procs.length 0]).dialogCount
      = s.dialogCount := by
  have hrun : run s [Event.showObj, Event.activateOk s.procs.length,
        Event.closeCall s.procs.length args, Event.deactOk s.procs.length 0]
      = step (step (step (step s Event.showObj) (Event.activateOk s.procs.length))
          (Event.closeCall s.procs.length args)) (Event.deactOk s.procs.length 0) := rfl
  set t1 := step s Event.showObj with ht1
  have hcat : t1.getProc s.procs.length = some newProcObj := by
    rw [ht1]
    simp only [step, MState.getProc]
    exact List.getElem?_concat_length _ _
  have hlen : s.procs.length < t1.procs.length := by
    rw [ht1]
    simp [step]
  have hdc1 : t1.dialogCount = s.dialogCount := by
    rw [ht1]
    rfl
  have h1 : step t1 (Event.activateOk s.procs.length)
      = MState.mk (t1.procs.set s.procs.length
          (ShowProc.mk Phase.live DfdState.pending true [] 1 0 0)) (t1.dialogCount + 1) := by
    simp only [step]
    rw [hcat]
    simp [newProcObj, MState.setProc]
  have h2 : (MState.mk (t1.procs.set s.procs.length
        (ShowProc.mk Phase.live DfdState.pending true [] 1 0 0))
        (t1.dialogCount + 1)).getProc s.procs.length
      = some (ShowProc.mk Phase.live DfdState.pending true [] 1 0 0) := by
    simp only [getProc_mk]
    exact List.getElem?_set_self hlen
  have h3 : step (MState.mk (t1.procs.set s.procs.length
        (ShowProc.mk Phase.live DfdState.pending true [] 1 0 0)) (t1.dialogCount + 1))
        (Event.closeCall s.procs.length args)
      = MState.mk ((t1.procs.set s.procs.length
          (ShowProc.mk Phase.live DfdState.pending true [] 1 0 0)).set s.procs.length
          (ShowProc.mk Phase.live DfdState.pending true [args] 1 0 0))
          (t1.dialogCount + 1) := by
    simp only [step, close, getDialog]
    rw [h2]
    simp [h2, MState.setProc]
  have h4 : (MState.mk ((t1.procs.set s.procs.length
        (ShowProc.mk Phase.live DfdState.pending true [] 1 0 0)).set s.procs.length
        (ShowProc.mk Phase.live DfdState.pending true [args] 1 0 0))
        (t1.dialogCount + 1)).getProc s.procs.length
      = some (ShowProc.mk Phase.live DfdState.pending true [args] 1 0 0) := by
    simp only [getProc_mk]
    exact List.getElem?_set_self (by simpa using hlen)
  have h5 : step (MState.mk ((t1.procs.set s.procs.length
        (ShowProc.mk Phase.live DfdState.pending true [] 1 0 0)).set s.procs.length
        (ShowProc.mk Phase.live DfdState.pending true [args] 1 0 0)) (t1.dialogCount + 1))
        (Event.deactOk s.procs.length 0)
      = MState.mk (((t1.procs.set s.procs.length
          (ShowProc.mk Phase.live DfdState.pending true [] 1 0 0)).set s.procs.length
          (ShowProc.mk Phase.live DfdState.pending true [args] 1 0 0)).set s.procs.length
          (ShowProc.mk Phase.live (DfdState.resolvedClose args) false [] 1 1 1))
          (t1.dialogCount + 1 - 1) := by
    simp only [step]
    rw [h4]
    simp [MState.setProc, DfdState.settle]
  have hfinal : (MState.mk (((t1.procs.set s.procs.length
        (ShowProc.mk Phase.live DfdState.pending true [] 1 0 0)).set s.procs.length
        (ShowProc.mk Phase.live DfdState.pending true [args] 1 0 0)).set s.procs.length
        (ShowProc.mk Phase.live (DfdState.resolvedClose args) false [] 1 1 1))
        (t1.dialogCount + 1 - 1)).getProc s.procs.length
      = some (ShowProc.mk Phase.live (DfdState.resolvedClose args) false [] 1 1 1) := by
    simp only [getProc_mk]
    exact List.getElem?_set_self (by simpa using hlen)
  rw [hrun, h1, h3, h5]
  refine ⟨?_, ?_, ?_⟩
  · rw [hfinal]
    rfl
  · simp only [getDialog]
    rw [hfinal]
    simp
  · simp only
    rw [hdc1]
    ring


lemma getProc_mem {s : MState} {i : Nat} {p : ShowProc} (h : s.getProc i = some p) :
    p ∈ s.procs := by
  unfold MState.getProc at h
  rw [List.getElem?_eq_some] at h
  obtain ⟨hlt, heq⟩ := h
  exact heq ▸ List.getElem_mem hlt

/-- Updating one element changes a mapped sum by the difference at that
element. -/
lemma sum_map_set (l : List ShowProc) (i : Nat) (a b : ShowProc) (f : ShowProc → Int)
    (h : l[i]? = some a) :
    ((l.set i b).map f).sum = (l.map f).sum - f a + f b := by
  induction l generalizing i with
  | nil => simp at h
  | cons c t ih =>
    cases i with
    | zero =>
      simp only [List.getElem?_cons_zero, Option.some.injEq] at h
      subst h
      simp only [List.set_cons_zero, List.map_cons, List.sum_cons]
      ring
    | succ n =>
      simp only [List.getElem?_cons_succ] at h
      simp only [List.set_cons_succ, List.map_cons, List.sum_cons, ih n h]
      ring

/-- Pointwise equality `f = g - k` lifts to mapped sums. -/
lemma sum_map_sub_pointwise (l : List ShowProc) (f g k : ShowProc → Int)
    (hp : ∀ p ∈ l, f p = g p - k p) :
    (l.map f).sum = (l.map g).sum - (l.map k).sum := by
  induction l with
  | nil => simp
  | cons a t ih =>
    simp only [List.map_cons, List.sum_cons]
    rw [hp a (by simp), ih (fun p hm => hp p (by simp [hm]))]
    ring

/-- Replacing session `i` preserves the invariant when the counter absorbs
the difference of the ledger contributions and the new record satisfies the
per-session invariant. -/
lemma Inv_update (s : MState) (i : Nat) (p p' : ShowProc) (dc : Int)
    (h : Inv s) (hp : s.getProc i = some p)
    (hled : dc = s.dialogCount
        + ((if p'.phase = Phase.live then (1 : Int) else 0)
            - (if p.phase = Phase.live then (1 : Int) else 0))
        - ((p'.closedCount : Int) - (p.closedCount : Int)))
    (hinv : ProcInv p') :
    Inv (MState.mk (s.procs.set i p') dc) := by
  have hp0 : s.procs[i]? = some p := hp
  constructor
  · show dc = openedI _ - closedI _
    unfold openedI closedI
    dsimp only
    rw [sum_map_set s.procs i p p' _ hp0, sum_map_set s.procs i p p' _ hp0]
    have h1 := h.1
    unfold openedI closedI at h1
    rw [hled, h1]
    ring
  · intro q hq
    dsimp only at hq
    rcases List.mem_or_eq_of_mem_set hq with hmem | rfl
    · exact h.2 q hmem
    · exact hinv

/-- Special case of `Inv_update` for updates that leave the counter, phase
contribution and close count unchanged. -/
lemma Inv_setProc (s : MState) (i : Nat) (p p' : ShowProc)
    (h : Inv s) (hp : s.getProc i = some p)
    (hphase : (if p'.phase = Phase.live then (1 : Int) else 0)
        = (if p.phase = Phase.live then (1 : Int) else 0))
    (hclosed : p'.closedCount = p.closedCount)
    (hinv : ProcInv p') :
    Inv (s.setProc i p') := by
  have := Inv_update s i p p' s.dialogCount h hp (by rw [hphase, hclosed]; ring) hinv
  simpa [MState.setProc] using this

/-- The machine invariant is preserved by every step. -/
lemma Inv_step (s : MState) (e : Event) (h : Inv s) : Inv (step s e) := by
  cases e with
  | showObj =>
    simp only [step]
    constructor
    · have h1 := h.1
      unfold openedI closedI at h1 ⊢
      simp [newProcObj, h1]
    · intro q hq
      dsimp only at hq
      rcases List.mem_append.mp hq with hmem | hmem
      · exact h.2 q hmem
      · rw [List.mem_singleton.mp hmem]
        refine ⟨by decide, by decide⟩
  | showStr =>
    simp only [step]
    constructor
    · have h1 := h.1
      unfold openedI closedI at h1 ⊢
      simp [newProcStr, h1]
    · intro q hq
      dsimp only at hq
      rcases List.mem_append.mp hq with hmem | hmem
      · exact h.2 q hmem
      · rw [List.mem_singleton.mp hmem]
        refine ⟨by decide, by decide⟩
  | acquireOk i =>
    simp only [step]
    rcases hq : s.getProc i with _ | p
    · exact h
    simp only [hq]
    by_cases hph : p.phase = Phase.resolving
    · rw [if_pos hph]
      obtain ⟨ha, hc⟩ := h.2 p (getProc_mem hq)
      have hc0 : p.closedCount = 0 := by
        by_contra hcc
        have := hc hcc
        rw [hph] at this
        exact absurd this (by decide)
      refine Inv_setProc s i p _ h hq (by simp [hph]) rfl ⟨?_, ?_⟩
      · rw [hph] at ha
        simpa using ha
      · intro hcc
        exact absurd hc0 (by simpa using hcc)
    · rw [if_neg hph]
      exact h
  | acquireFail i =>
    simp only [step]
    rcases hq : s.getProc i with _ | p
    · exact h
    simp only [hq]
    by_cases hph : p.phase = Phase.resolving
    · rw [if_pos hph]
      obtain ⟨ha, hc⟩ := h.2 p (getProc_mem hq)
      have hc0 : p.closedCount = 0 := by
        by_contra hcc
        have := hc hcc
        rw [hph] at this
        exact absurd this (by decide)
      refine Inv_setProc s i p _ h hq (by simp [hph]) rfl ⟨?_, ?_⟩
      · rw [hph] at ha
        simpa using ha
      · intro hcc
        exact absurd hc0 (by simpa using hcc)
    · rw [if_neg hph]
      exact h
  | activateOk i =>
    simp only [step]
    rcases hq : s.getProc i with _ | p
    · exact h
    simp only [hq]
    by_cases hph : p.phase = Phase.activating
    · rw [if_pos hph]
      obtain ⟨ha, hc⟩ := h.2 p (getProc_mem hq)
      have hc0 : p.closedCount = 0 := by
        by_contra hcc
        have := hc hcc
        rw [hph] at this
        exact absurd this (by decide)
      simp only [setProc_procs]
      refine Inv_update s i p _ (s.dialogCount + 1) h hq ?_ ⟨?_, ?_⟩
      · simp [hph]
      · simp [hc0]
      · intro hcc
        rfl
    · rw [if_neg hph]
      exact h
  | activateDeclined i =>
    simp only [step]
    rcases hq : s.getProc i with _ | p
    · exact h
    simp only [hq]
    by_cases hph : p.phase = Phase.activating
    · rw [if_pos hph]
      obtain ⟨ha, hc⟩ := h.2 p (getProc_mem hq)
      have hc0 : p.closedCount = 0 := by
        by_contra hcc
        have := hc hcc
        rw [hph] at this
        exact absurd this (by decide)
      refine Inv_setProc s i p _ h hq (by simp [hph]) rfl ⟨?_, ?_⟩
      · rw [hph] at ha
        simpa using ha
      · intro hcc
        exact absurd hc0 (by simpa using hcc)
    · rw [if_neg hph]
      exact h
  | closeCall i args =>
    simp only [step, close, getDialog]
    rcases hq : s.getProc i with _ | p
    · exact h
    simp only [hq]
    by_cases hatt : p.attached = true
    · rw [if_pos hatt]
      simp only [hq]
      obtain ⟨ha, hc⟩ := h.2 p (getProc_mem hq)
      refine Inv_setProc s i p _ h hq rfl rfl ⟨?_, ?_⟩
      · simpa using ha
      · intro hcc
        exact hc (by simpa using hcc)
    · rw [if_neg hatt]
      exact h
  | sessionClose i args =>
    simp only [step]
    rcases hq : s.getProc i with _ | p
    · exact h
    simp only [hq]
    by_cases hph : p.phase = Phase.live
    · rw [if_pos hph]
      obtain ⟨ha, hc⟩ := h.2 p (getProc_mem hq)
      refine Inv_setProc s i p _ h hq rfl rfl ⟨?_, ?_⟩
      · simpa using ha
      · intro hcc
        exact hc (by simpa using hcc)
    · rw [if_neg hph]
      exact h
  | deactOk i k =>
    simp only [step]
    rcases hq : s.getProc i with _ | p
    · exact h
    simp only [hq]
    by_cases hph : p.phase = Phase.live
    · rw [if_pos hph]
      rcases hk : p.pendingDeacts[k]? with _ | args
      · exact h
      simp only [setProc_procs]
      obtain ⟨ha, hc⟩ := h.2 p (getProc_mem hq)
      refine Inv_update s i p _ (s.dialogCount - 1) h hq ?_ ⟨?_, ?_⟩
      · dsimp only
        push_cast
        ring
      · simp
      · intro hcc
        exact hph
    · rw [if_neg hph]
      exact h
  | deactDeclined i k =>
    simp only [step]
    rcases hq : s.getProc i with _ | p
    · exact h
    simp only [hq]
    by_cases hph : p.phase = Phase.live
    · rw [if_pos hph]
      rcases hk : p.pendingDeacts[k]? with _ | args
      · exact h
      obtain ⟨ha, hc⟩ := h.2 p (getProc_mem hq)
      refine Inv_setProc s i p _ h hq rfl rfl ⟨?_, ?_⟩
      · simpa using ha
      · intro hcc
        exact hc (by simpa using hcc)
    · rw [if_neg hph]
      exact h

/-- The invariant holds initially and along every run. -/
lemma Inv_run (es : List Event) : Inv (run MState.init es) := by
  have hinit : Inv MState.init := by
    constructor
    · simp [MState.init, openedI, closedI]
    · intro q hq
      simp [MState.init] at hq
  have hstep : ∀ s, Inv s → ∀ es2 : List Event, Inv (run s es2) := by
    intro s hs es2
    induction es2 generalizing s with
    | nil => exact hs
    | cons e t ih => exact ih (step s e) (Inv_step s e hs)
  exact hstep MState.init hinit es


/-- C6 counterexample: the claim fails when one session's close is invoked
twice concurrently.  `close` is called twice before either deactivation
continuation runs; the activation controller (per its contract) answers both
deactivations with no-op success; the continuation (lines 213-218) guards
only on `closeSuccess`, not on `__dialog__` still existing, so `dialogCount`
is decremented twice for one session.  At the resulting quiescent point (no
pending continuation remains) the count is `-1` while the number of live
sessions is `0`. -/
theorem dialog_count_double_close_cex :
    (run MState.init [Event.showObj, Event.activateOk 0, Event.closeCall 0 [],
        Event.closeCall 0 [], Event.deactOk 0 0, Event.deactOk 0 0]).dialogCount = -1
    ∧ liveI (run MState.init [Event.showObj, Event.activateOk 0, Event.closeCall 0 [],
        Event.closeCall 0 [], Event.deactOk 0 0, Event.deactOk 0 0]) = 0
    ∧ (run MState.init [Event.showObj, Event.activateOk 0, Event.closeCall 0 [],
        Event.closeCall 0 [], Event.deactOk 0 0, Event.deactOk 0 0]).dialogCount
      ≠ liveI (run MState.init [Event.showObj, Event.activateOk 0, Event.closeCall 0 [],
        Event.closeCall 0 [], Event.deactOk 0 0, Event.deactOk 0 0])
    ∧ Option.map ShowProc.pendingDeacts
        ((run MState.init [Event.showObj, Event.activateOk 0, Event.closeCall 0 [],
          Event.closeCall 0 [], Event.deactOk 0 0, Event.deactOk 0 0]).getProc 0)
      = some [] := by
  refine ⟨by decide, by decide, by decide, by decide⟩

/-- C6 (amended): the counter is a ledger — always equal to the number of
sessions created by a successful `show` minus the number of successful close
completions — and, provided no session's close completes successfully more
than once, it equals the number of live sessions (so after opening `N`
dialogs and closing `M` of them it is `N - M`); `isOpen()` is true iff the
counter is positive. -/
theorem dialog_count_ledger (es : List Event)
    (h1 : ∀ p ∈ (run MState.init es).procs, p.closedCount ≤ 1) :
    (run MState.init es).dialogCount
        = openedI (run MState.init es) - closedI (run MState.init es)
    ∧ (run MState.init es).dialogCount = liveI (run MState.init es)
    ∧ (isOpen (run MState.init es) = true ↔ 0 < (run MState.init es).dialogCount) := by
  obtain ⟨hled, hproc⟩ := Inv_run es
  refine ⟨hled, ?_, by simp [isOpen]⟩
  rw [hled]
  unfold liveI openedI closedI
  symm
  apply sum_map_sub_pointwise
  intro p hm
  obtain ⟨ha, hc⟩ := hproc p hm
  have hcle := h1 p hm
  by_cases hl : p.phase = Phase.live
  · by_cases hc0 : p.closedCount = 0
    · simp [ha, hl, hc0]
    · have hc1 : p.closedCount = 1 := by omega
      simp [ha, hl, hc0, hc1]
  · have hc0 : p.closedCount = 0 := by
      by_contra hcc
      exact hl (hc hcc)
    simp [ha, hl, hc0]

/-- Witness for C6: two dialogs opened, one closed once — the counter is
`2 - 1 = 1`, equal to the number of live sessions, and `isOpen()` holds. -/
theorem dialog_count_ledger_witness :
    (run MState.init [Event.showObj, Event.activateOk 0, Event.showObj, Event.activateOk 1,
        Event.closeCall 0 ["x"], Event.deactOk 0 0]).dialogCount
        = openedI (run MState.init [Event.showObj, Event.activateOk 0, Event.showObj,
            Event.activateOk 1, Event.closeCall 0 ["x"], Event.deactOk 0 0])
          - closedI (run MState.init [Event.showObj, Event.activateOk 0, Event.showObj,
            Event.activateOk 1, Event.closeCall 0 ["x"], Event.deactOk 0 0])
    ∧ (run MState.init [Event.showObj, Event.activateOk 0, Event.showObj, Event.activateOk 1,
        Event.closeCall 0 ["x"], Event.deactOk 0 0]).dialogCount
        = liveI (run MState.init [Event.showObj, Event.activateOk 0, Event.showObj,
            Event.activateOk 1, Event.closeCall 0 ["x"], Event.deactOk 0 0])
    ∧ (isOpen (run MState.init [Event.showObj, Event.activateOk 0, Event.showObj,
          Event.activateOk 1, Event.closeCall 0 ["x"], Event.deactOk 0 0]) = true
        ↔ 0 < (run MState.init [Event.showObj, Event.activateOk 0, Event.showObj,
            Event.activateOk 1, Event.closeCall 0 ["x"], Event.deactOk 0 0]).dialogCount) :=
  dialog_count_ledger [Event.showObj, Event.activateOk 0, Event.showObj, Event.activateOk 1,
    Event.closeCall 0 ["x"], Event.deactOk 0 0] (by decide)

end Durandal
